import Mathlib

set_option maxRecDepth 8192

/-!
# Verification of `email_litigation_analyzer.py`

A shallow embedding of the Email Litigation Risk Analyzer.  Text is
modelled as `List Char` (Python `str`, ASCII fragment).  The Python `re`
module is modelled by a small matcher covering exactly the constructs
appearing in the catalog: literal characters, the classes `\s` and `\d`,
the quantified classes `\s+`, `\s*`, `\d{n}`, the word-boundary assertion
`\b`, and one level of ordered alternation `(?:a|b|c)`.

`re.IGNORECASE` is modelled by lowercasing both the scanned character and
the pattern literal before comparison (the classes `\s`, `\d` and `\w`
are unchanged by ASCII case mapping, so testing them on the lowercased
character is equivalent).  Each source regex contains at most one
alternation group, and every alternative of every group starts with a
non-class character, so the regex is transcribed as an ordered list of
full alternative sequences; ordered backtracking over those sequences
coincides with Python's backtracking for these patterns.
-/

/-- ASCII fragment of Python's regex class `\s` (also used by `str.strip`):
space, tab, newline, carriage return, vertical tab, form feed. -/
def isPySpace (c : Char) : Bool :=
  c == ' ' || c == '\t' || c == '\n' || c == '\r' || c.toNat == 11 || c.toNat == 12

/-- ASCII fragment of Python's regex class `\w`: letters, digits, underscore. -/
def isWordChar (c : Char) : Bool :=
  c.isAlphanum || c == '_'

/-- The two character classes occurring in the catalog's regexes. -/
inductive Cl where
  | ws : Cl
  | digit : Cl
deriving DecidableEq

def Cl.mem : Cl → Char → Bool
  | .ws, c => isPySpace c
  | .digit, c => c.isDigit

/-- One element of a regex alternative: a literal character, a single
class character, a greedy one-or-more / zero-or-more class run, an exact
class repetition, or the word-boundary assertion. -/
inductive RElem where
  | lit : Char → RElem
  | cls : Cl → RElem
  | plusCls : Cl → RElem
  | starCls : Cl → RElem
  | repCls : Cl → Nat → RElem
  | wb : RElem
deriving DecidableEq

/-- A regex alternative: a sequence of elements. -/
abbrev RSeq := List RElem

/-- A compiled regex: its ordered list of alternatives. -/
abbrev Regex := List RSeq

/-- Transcribe a literal string into a sequence of literal elements. -/
def lits (s : String) : RSeq := s.data.map RElem.lit

/-- Python's `\b`: true when exactly one side of position `i` (in a text
of length `n` read through `f`) is a word character. -/
def boundaryB (n : Nat) (f : Nat → Char) (i : Nat) : Bool :=
  (decide (0 < i) && isWordChar (f (i - 1))) != (decide (i < n) && isWordChar (f i))

/-- Length of the maximal run of `cl`-characters starting at `j`,
driven by an explicit counter for structural recursion. -/
def runLenGo (cl : Cl) (n : Nat) (f : Nat → Char) : Nat → Nat → Nat
  | _, 0 => 0
  | j, c + 1 => if decide (j < n) && cl.mem (f j) then runLenGo cl n f (j + 1) c + 1 else 0

def runLen (cl : Cl) (n : Nat) (f : Nat → Char) (i : Nat) : Nat :=
  runLenGo cl n f i (n - i)

/-- Do exactly `m` consecutive `cl`-characters start at `j`? -/
def hasRep (cl : Cl) (n : Nat) (f : Nat → Char) : Nat → Nat → Bool
  | _, 0 => true
  | j, m + 1 => (decide (j < n) && cl.mem (f j)) && hasRep cl n f (j + 1) m

/-- Greedy backtracking over a quantified class run: try consuming `m`
characters, then `m - 1`, …, down to `lo`. -/
def tryDown (g : Nat → Option Nat) (lo : Nat) : Nat → Option Nat
  | 0 => if lo == 0 then g 0 else none
  | m + 1 =>
    if m + 1 < lo then none
    else
      match g (m + 1) with
      | some r => some r
      | none => tryDown g lo m

/-- Match one alternative sequence at position `i` of the text of length
`n` read through `f`; return the end position of the match. -/
def matchSeq : RSeq → Nat → (Nat → Char) → Nat → Option Nat
  | [], _, _, i => some i
  | .lit c :: es, n, f, i =>
    if decide (i < n) && (f i == Char.toLower c) then matchSeq es n f (i + 1) else none
  | .cls cl :: es, n, f, i =>
    if decide (i < n) && cl.mem (f i) then matchSeq es n f (i + 1) else none
  | .plusCls cl :: es, n, f, i =>
    tryDown (fun m => matchSeq es n f (i + m)) 1 (runLen cl n f i)
  | .starCls cl :: es, n, f, i =>
    tryDown (fun m => matchSeq es n f (i + m)) 0 (runLen cl n f i)
  | .repCls cl m :: es, n, f, i =>
    if hasRep cl n f i m then matchSeq es n f (i + m) else none
  | .wb :: es, n, f, i =>
    if boundaryB n f i then matchSeq es n f i else none

/-- Try the regex's alternatives in order at position `i`. -/
def matchAlts : Regex → Nat → (Nat → Char) → Nat → Option Nat
  | [], _, _, _ => none
  | a :: rest, n, f, i =>
    match matchSeq a n f i with
    | some e => some e
    | none => matchAlts rest n f i

/-- Transcribes `re.finditer`: scan positions left to right, keep non-overlapping
matches, resume after each match.  The counter starts at `n + 1`; the
position strictly increases at every step, so the counter never runs out
before the position passes `n`. -/
def findIterGo (rx : Regex) (n : Nat) (f : Nat → Char) : Nat → Nat → List (Nat × Nat)
  | 0, _ => []
  | c + 1, i =>
    if n < i then []
    else
      match matchAlts rx n f i with
      | some e => (i, e) :: findIterGo rx n f c (if i < e then e else i + 1)
      | none => findIterGo rx n f c (i + 1)

def findIter (rx : Regex) (n : Nat) (f : Nat → Char) : List (Nat × Nat) :=
  findIterGo rx n f (n + 1) 0

/-- The apostrophe character (in the source regex `we'll take you to court`). -/
def apostrophe : Char := Char.ofNat 39

/- The catalog regexes, one definition per source regex string. -/

/-- Transcribes `\bwe\s+(?:are|re|were)\s+responsible\b` -/
def rxWeResponsible : Regex :=
  [ [RElem.wb] ++ lits "we" ++ [RElem.plusCls Cl.ws] ++ lits "are"
      ++ [RElem.plusCls Cl.ws] ++ lits "responsible" ++ [RElem.wb],
    [RElem.wb] ++ lits "we" ++ [RElem.plusCls Cl.ws] ++ lits "re"
      ++ [RElem.plusCls Cl.ws] ++ lits "responsible" ++ [RElem.wb],
    [RElem.wb] ++ lits "we" ++ [RElem.plusCls Cl.ws] ++ lits "were"
      ++ [RElem.plusCls Cl.ws] ++ lits "responsible" ++ [RElem.wb] ]

/-- Transcribes `\bI\s+admit\b` -/
def rxIAdmit : Regex :=
  [ [RElem.wb] ++ lits "I" ++ [RElem.plusCls Cl.ws] ++ lits "admit" ++ [RElem.wb] ]

/-- Transcribes `\bguarantee\b` -/
def rxGuarantee : Regex :=
  [ [RElem.wb] ++ lits "guarantee" ++ [RElem.wb] ]

/-- Transcribes `\bwill\s+(?:ensure|cover|compensate)\b` -/
def rxWillEnsure : Regex :=
  [ [RElem.wb] ++ lits "will" ++ [RElem.plusCls Cl.ws] ++ lits "ensure" ++ [RElem.wb],
    [RElem.wb] ++ lits "will" ++ [RElem.plusCls Cl.ws] ++ lits "cover" ++ [RElem.wb],
    [RElem.wb] ++ lits "will" ++ [RElem.plusCls Cl.ws] ++ lits "compensate" ++ [RElem.wb] ]

/-- Transcribes `\b(?:idiot|stupid|incompetent|useless)\b` -/
def rxInsults : Regex :=
  [ [RElem.wb] ++ lits "idiot" ++ [RElem.wb],
    [RElem.wb] ++ lits "stupid" ++ [RElem.wb],
    [RElem.wb] ++ lits "incompetent" ++ [RElem.wb],
    [RElem.wb] ++ lits "useless" ++ [RElem.wb] ]

/-- Transcribes `\b(?:pay up|or else|you\s+must)\b` -/
def rxThreatsHostile : Regex :=
  [ [RElem.wb] ++ lits "pay up" ++ [RElem.wb],
    [RElem.wb] ++ lits "or else" ++ [RElem.wb],
    [RElem.wb] ++ lits "you" ++ [RElem.plusCls Cl.ws] ++ lits "must" ++ [RElem.wb] ]

/-- Transcribes `\b(?:settle|settlement|without prejudice)\b` -/
def rxSettle : Regex :=
  [ [RElem.wb] ++ lits "settle" ++ [RElem.wb],
    [RElem.wb] ++ lits "settlement" ++ [RElem.wb],
    [RElem.wb] ++ lits "without prejudice" ++ [RElem.wb] ]

/-- Transcribes `\b(?:offer|demand)\s+to\s+settle\b` -/
def rxOfferToSettle : Regex :=
  [ [RElem.wb] ++ lits "offer" ++ [RElem.plusCls Cl.ws] ++ lits "to"
      ++ [RElem.plusCls Cl.ws] ++ lits "settle" ++ [RElem.wb],
    [RElem.wb] ++ lits "demand" ++ [RElem.plusCls Cl.ws] ++ lits "to"
      ++ [RElem.plusCls Cl.ws] ++ lits "settle" ++ [RElem.wb] ]

/-- Transcribes `\b(?:fraud|scam|criminal)\b` -/
def rxDefamation : Regex :=
  [ [RElem.wb] ++ lits "fraud" ++ [RElem.wb],
    [RElem.wb] ++ lits "scam" ++ [RElem.wb],
    [RElem.wb] ++ lits "criminal" ++ [RElem.wb] ]

/-- Transcribes `\b(?:I will sue|we'll take you to court|legal action)\b` -/
def rxThreatOfAction : Regex :=
  [ [RElem.wb] ++ lits "I will sue" ++ [RElem.wb],
    [RElem.wb] ++ lits "we" ++ [RElem.lit apostrophe] ++ lits "ll take you to court" ++ [RElem.wb],
    [RElem.wb] ++ lits "legal action" ++ [RElem.wb] ]

/-- Transcribes `SSN\s*\d{3}-\d{2}-\d{4}` (note: no word-boundary assertions). -/
def rxSSN : Regex :=
  [ lits "SSN" ++ [RElem.starCls Cl.ws, RElem.repCls Cl.digit 3, RElem.lit '-',
      RElem.repCls Cl.digit 2, RElem.lit '-', RElem.repCls Cl.digit 4] ]

/-- Transcribes `\b(?:password|credential|confidential)\b` -/
def rxSensitiveWords : Regex :=
  [ [RElem.wb] ++ lits "password" ++ [RElem.wb],
    [RElem.wb] ++ lits "credential" ++ [RElem.wb],
    [RElem.wb] ++ lits "confidential" ++ [RElem.wb] ]

/-- Transcribes `\b(?:fired because|due to your age|because of your race)\b` -/
def rxDiscrimination : Regex :=
  [ [RElem.wb] ++ lits "fired because" ++ [RElem.wb],
    [RElem.wb] ++ lits "due to your age" ++ [RElem.wb],
    [RElem.wb] ++ lits "because of your race" ++ [RElem.wb] ]

/-- Transcribes `\b(?:fix prices|divide markets|collusion)\b` -/
def rxAntitrust : Regex :=
  [ [RElem.wb] ++ lits "fix prices" ++ [RElem.wb],
    [RElem.wb] ++ lits "divide markets" ++ [RElem.wb],
    [RElem.wb] ++ lits "collusion" ++ [RElem.wb] ]

/-- Transcribes `RiskPattern`: a risk category and its ordered regexes. -/
structure RiskPattern where
  category : String
  patterns : List Regex
deriving DecidableEq

/-- Read a text character, lowercased (the `re.IGNORECASE` model). -/
def lowGet (text : List Char) (i : Nat) : Char :=
  Char.toLower (text.getD i (Char.ofNat 0))

/-- Python slice `text[a:b]`. -/
def sliceList (text : List Char) (a b : Nat) : List Char :=
  (text.drop a).take (b - a)

/-- Python `str.strip()` (ASCII whitespace). -/
def pyStrip (l : List Char) : List Char :=
  ((l.dropWhile isPySpace).reverse.dropWhile isPySpace).reverse

/-- Transcribes `RiskPattern.match` from the source: for each regex in order, all
`finditer` matches, each paired with the stripped context window
`text[max(0, start - 40) : min(len(text), end + 40)]`. -/
def RiskPattern.matchList (p : RiskPattern) (text : List Char) : List (List Char × Nat × Nat) :=
  p.patterns.flatMap fun rx =>
    (findIter rx text.length (lowGet text)).map fun pr =>
      (pyStrip (sliceList text (pr.1 - 40) (min text.length (pr.2 + 40))), pr.1, pr.2)

/-- Transcribes `_compile_patterns()`: the catalog, in source enumeration order. -/
def PATTERNS : List RiskPattern :=
  [ ⟨"admission_of_fault", [rxWeResponsible, rxIAdmit]⟩,
    ⟨"over_promise", [rxGuarantee, rxWillEnsure]⟩,
    ⟨"hostile_language", [rxInsults, rxThreatsHostile]⟩,
    ⟨"settlement_discussion", [rxSettle, rxOfferToSettle]⟩,
    ⟨"defamation", [rxDefamation]⟩,
    ⟨"threat_of_action", [rxThreatOfAction]⟩,
    ⟨"sensitive_data", [rxSSN, rxSensitiveWords]⟩,
    ⟨"employment_discrimination", [rxDiscrimination]⟩,
    ⟨"antitrust", [rxAntitrust]⟩ ]

/-- The snippet shortening in `analyze_email`:
`if len(snippet) > 200: snippet = snippet[:200] + ellipsis`. -/
def shorten (sn : List Char) : List Char :=
  if 200 < sn.length then sn.take 200 ++ ['…'] else sn

/-- The bracket annotation in `analyze_email`: `[category] snippet`. -/
def mkEntry (cat : String) (sn : List Char) : List Char :=
  '[' :: (cat.data ++ (']' :: ' ' :: sn))

/-- The accumulation loop of `analyze_email`, processed head first so the
output lists keep the loop's append order: returns
(categories_found, snippets, flag_count). -/
def scanPatterns : List RiskPattern → List Char → List String × List (List Char) × Nat
  | [], _ => ([], [], 0)
  | p :: ps, text =>
    let ms := p.matchList text
    let rest := scanPatterns ps text
    if ms.isEmpty then rest
    else (p.category :: rest.1,
          ms.map (fun m => mkEntry p.category (shorten m.1)) ++ rest.2.1,
          ms.length + rest.2.2)

/-- Python's `x or 1` on a count. -/
def orOne (k : Nat) : Nat := if k == 0 then 1 else k

/-- Python's `sorted` on a list of strings (insertion sort, code-point order). -/
def insertSorted (s : String) : List String → List String
  | [] => [s]
  | t :: ts => if decide (s ≤ t) then s :: t :: ts else t :: insertSorted s ts

def sortStrings : List String → List String
  | [] => []
  | s :: ss => insertSorted s (sortStrings ss)

/-- Python's `sep.join(parts)`. -/
def joinSep (sep : List Char) : List (List Char) → List Char
  | [] => []
  | [x] => x
  | x :: y :: xs => x ++ sep ++ joinSep sep (y :: xs)

/-- The input record: `subject`/`body`, where `none` covers both a missing
key and a `None` value (`email.get("subject", "") or ""`). -/
structure EmailRecord where
  subject : Option (List Char)
  body : Option (List Char)

def getField : Option (List Char) → List Char
  | none => []
  | some s => s

/-- Transcribes `combined_text = f"{subject}\n{body}"`. -/
def combinedText (e : EmailRecord) : List Char :=
  getField e.subject ++ '\n' :: getField e.body

/-- The four-field result of `analyze_email`. -/
structure AnalysisResult where
  risk_score : Nat
  risk_categories : List Char
  num_flags : Nat
  flagged_snippets : List Char
deriving DecidableEq

/-- Transcribes `analyze_email` from the source. -/
def analyze_email (e : EmailRecord) : AnalysisResult :=
  let scan := scanPatterns PATTERNS (combinedText e)
  { risk_score := scan.2.2 * orOne scan.1.dedup.length,
    risk_categories := joinSep ", ".data ((sortStrings scan.1.dedup).map String.data),
    num_flags := scan.2.2,
    flagged_snippets := joinSep "; ".data scan.2.1 }

/-! ## Derived definitions used by the statements -/

/-- The number of distinct catalog categories with at least one match in
the record's combined text. -/
def distinctMatchedCategories (e : EmailRecord) : Nat :=
  (((PATTERNS.filter fun p => !(p.matchList (combinedText e)).isEmpty).map
      RiskPattern.category).dedup).length

/-- The annotated snippet sequence described by the spec: catalog
category order, then pattern order, then match order within a pattern. -/
def specEntries (e : EmailRecord) : List (List Char) :=
  PATTERNS.flatMap fun p =>
    (p.matchList (combinedText e)).map fun m => mkEntry p.category (shorten m.1)

/-- Upper-case a text (Python `str.upper`, ASCII). -/
def upperStr (l : List Char) : List Char := l.map Char.toUpper

/-- The record with subject and body mapped to upper case. -/
def upperEmail (e : EmailRecord) : EmailRecord :=
  ⟨e.subject.map upperStr, e.body.map upperStr⟩

/-- Is `nd` an initial segment of `hay`? -/
def leadsList : List Char → List Char → Bool
  | [], _ => true
  | _ :: _, [] => false
  | a :: as, b :: bs => a == b && leadsList as bs

/-- Python's substring test `nd in hay`. -/
def subStrIn : List Char → List Char → Bool
  | nd, [] => leadsList nd []
  | nd, c :: rest => leadsList nd (c :: rest) || subStrIn nd rest

/-- Does the alternative start with a word-boundary assertion? -/
def startsWb : RSeq → Bool
  | RElem.wb :: _ => true
  | _ => false

/-- Does the alternative end with a word-boundary assertion? -/
def endsWb : RSeq → Bool
  | [] => false
  | [e] => e == RElem.wb
  | _ :: e2 :: es => endsWb (e2 :: es)

/-- Is every alternative of the regex delimited by word boundaries? -/
def altsDelimited (rx : Regex) : Bool :=
  rx.all fun a => startsWb a && endsWb a

/-! ## Helper lemmas about the accumulation loop -/

theorem scan_cats (ps : List RiskPattern) (t : List Char) :
    (scanPatterns ps t).1
      = (ps.filter fun p => !(p.matchList t).isEmpty).map RiskPattern.category := by
  induction ps with
  | nil => rfl
  | cons p ps ih =>
    simp only [scanPatterns, List.filter_cons]
    cases h : (p.matchList t).isEmpty <;> simp [h, ih]

theorem scan_snips (ps : List RiskPattern) (t : List Char) :
    (scanPatterns ps t).2.1
      = ps.flatMap fun p => (p.matchList t).map fun m => mkEntry p.category (shorten m.1) := by
  induction ps with
  | nil => rfl
  | cons p ps ih =>
    simp only [scanPatterns, List.flatMap_cons]
    cases h : (p.matchList t).isEmpty
    · simp [h, ih]
    · rw [List.isEmpty_iff] at h
      simp [h, ih]

theorem scan_flags (ps : List RiskPattern) (t : List Char) :
    (scanPatterns ps t).2.2 = (ps.map fun p => (p.matchList t).length).sum := by
  induction ps with
  | nil => rfl
  | cons p ps ih =>
    simp only [scanPatterns, List.map_cons, List.sum_cons]
    cases h : (p.matchList t).isEmpty
    · simp [h, ih]
    · rw [List.isEmpty_iff] at h
      simp [h, ih]

theorem scan_len_le (ps : List RiskPattern) (t : List Char) :
    (scanPatterns ps t).1.length ≤ (scanPatterns ps t).2.2 := by
  induction ps with
  | nil => exact Nat.le_refl 0
  | cons p ps ih =>
    simp only [scanPatterns]
    cases h : (p.matchList t).isEmpty
    · have hne : p.matchList t ≠ [] := fun hh => by rw [hh] at h; simp at h
      have hlen : 0 < (p.matchList t).length := List.length_pos.mpr hne
      simp only [Bool.false_eq_true, if_false, List.length_cons]
      omega
    · simp [h, ih]

theorem orOne_eq_max (k : Nat) : orOne k = max 1 k := by
  cases k with
  | zero => rfl
  | succ m => simp [orOne, Nat.max_eq_right (Nat.succ_le_succ (Nat.zero_le m))]

theorem orOne_ne_zero (k : Nat) : orOne k ≠ 0 := by
  cases k <;> simp [orOne]

/-! ## Claim theorems -/

/-- C1: for every input record, the risk score equals the flag count
multiplied by `max 1 (number of distinct categories with at least one
match)`. -/
theorem risk_score_eq_flags_mul_distinct (e : EmailRecord) :
    (analyze_email e).risk_score
      = (analyze_email e).num_flags * max 1 (distinctMatchedCategories e) := by
  simp only [analyze_email, distinctMatchedCategories]
  rw [orOne_eq_max, scan_cats]

/-- C6: flag count and risk score are non-negative, and the risk score is
zero exactly when the flag count is zero. -/
theorem flags_and_score_nonneg_zero_iff (e : EmailRecord) :
    0 ≤ (analyze_email e).num_flags ∧ 0 ≤ (analyze_email e).risk_score ∧
      ((analyze_email e).risk_score = 0 ↔ (analyze_email e).num_flags = 0) := by
  refine ⟨Nat.zero_le _, Nat.zero_le _, ?_⟩
  simp only [analyze_email]
  simp [Nat.mul_eq_zero, orOne_ne_zero]

/-- C7: when the returned category set is non-empty, the flag count is at
least the number of distinct matched categories. -/
theorem flags_ge_distinct_categories (e : EmailRecord)
    (h : (analyze_email e).risk_categories ≠ []) :
    distinctMatchedCategories e ≤ (analyze_email e).num_flags := by
  simp only [analyze_email, distinctMatchedCategories]
  rw [← scan_cats]
  calc (scanPatterns PATTERNS (combinedText e)).1.dedup.length
      ≤ (scanPatterns PATTERNS (combinedText e)).1.length :=
        (List.dedup_sublist _).length_le
    _ ≤ (scanPatterns PATTERNS (combinedText e)).2.2 := scan_len_le _ _

/-- Witness for C7 at a record whose subject is "guarantee". -/
theorem flags_ge_distinct_categories_witness :
    (analyze_email ⟨some "guarantee".data, some []⟩).risk_categories ≠ [] ∧
      distinctMatchedCategories ⟨some "guarantee".data, some []⟩
        ≤ (analyze_email ⟨some "guarantee".data, some []⟩).num_flags :=
  ⟨by decide, flags_ge_distinct_categories _ (by decide)⟩

/-- C4: a snippet longer than 200 characters is recorded as its first 200
characters followed by the ellipsis marker: 201 characters in total,
ending with the marker. -/
theorem shorten_long_snippet (sn : List Char) (h : 200 < sn.length) :
    (shorten sn).length = 201 ∧ (shorten sn).getLast? = some '…' := by
  unfold shorten
  rw [if_pos h]
  refine ⟨?_, List.getLast?_concat _⟩
  simp only [List.length_append, List.length_take, List.length_cons, List.length_nil]
  omega

/-- Witness for C4 at a 201-character snippet. -/
theorem shorten_long_snippet_witness :
    200 < (List.replicate 201 'a').length ∧
      ((shorten (List.replicate 201 'a')).length = 201 ∧
        (shorten (List.replicate 201 'a')).getLast? = some '…') :=
  ⟨by decide, shorten_long_snippet _ (by decide)⟩

/-- C5: a missing or null subject or body is treated as the empty string,
and the empty record produces the all-empty result. -/
theorem analyze_email_degrades_and_empty :
    (∀ b, analyze_email ⟨none, b⟩ = analyze_email ⟨some [], b⟩) ∧
      (∀ s, analyze_email ⟨s, none⟩ = analyze_email ⟨s, some []⟩) ∧
      analyze_email ⟨none, none⟩ =
        { risk_score := 0, risk_categories := [], num_flags := 0, flagged_snippets := [] } := by
  refine ⟨fun b => rfl, fun s => rfl, by decide⟩

/-- C9: the flagged snippet string is the "; "-join of exactly one
annotated entry per match, in catalog order, then pattern order, then
match order. -/
theorem flagged_snippets_refines_spec (e : EmailRecord) :
    (analyze_email e).flagged_snippets = joinSep "; ".data (specEntries e) ∧
      (specEntries e).length = (analyze_email e).num_flags := by
  constructor
  · simp only [analyze_email, specEntries]
    rw [scan_snips]
  · simp only [analyze_email, specEntries]
    rw [List.length_flatMap, scan_flags]
    simp only [Function.comp_def, List.length_map]

/-- The `hostile_language` catalog entry. -/
def hostileCat : RiskPattern := ⟨"hostile_language", [rxInsults, rxThreatsHostile]⟩

/-- A record whose combined text contains both "idiot" and "pay up or else". -/
def hostileRecord : EmailRecord := ⟨some [], some "idiot pay up or else".data⟩

/-- C2 counterexample: a record containing both "idiot" and "pay up or
else" for which `hostile_language` reports 3 flags, not 2 — the phrase
"pay up or else" matches the second pattern twice ("pay up" and "or
else"). -/
theorem hostile_two_flags_counterexample :
    hostileCat ∈ PATTERNS ∧
      subStrIn "idiot".data (combinedText hostileRecord) = true ∧
      subStrIn "pay up or else".data (combinedText hostileRecord) = true ∧
      (hostileCat.matchList (combinedText hostileRecord)).length ≠ 2 := by decide

/-- C2 amended: for the record with empty subject and body
"idiot pay up or else", `hostile_language` reports exactly 3 flags: one
from the first pattern and two from the second. -/
theorem hostile_three_flags :
    (hostileCat.matchList (combinedText hostileRecord)).length = 3 ∧
      (findIter rxInsults (combinedText hostileRecord).length
          (lowGet (combinedText hostileRecord))).length = 1 ∧
      (findIter rxThreatsHostile (combinedText hostileRecord).length
          (lowGet (combinedText hostileRecord))).length = 2 ∧
      (analyze_email hostileRecord).num_flags = 3 := by decide

/-- C10: joining subject and body with a newline lets `\s+` span the
field boundary: subject "we" with body "are responsible" flags
`admission_of_fault`, while neither field alone does. -/
theorem admission_spans_subject_body :
    (analyze_email ⟨some "we".data, some "are responsible".data⟩).risk_categories
        = "admission_of_fault".data ∧
      (analyze_email ⟨some "we".data, some []⟩).risk_categories = [] ∧
      (analyze_email ⟨some [], some "are responsible".data⟩).risk_categories = [] := by decide

/-! ## Case-insensitivity -/

theorem toNat_ofNat_of_lt {m : Nat} (h : m < 55296) : (Char.ofNat m).toNat = m := by
  rw [Char.ofNat, dif_pos (Or.inl h)]
  simp [Char.ofNatAux, Char.toNat, UInt32.toNat]

/-- Lowercasing absorbs a preceding uppercasing (ASCII case map). -/
theorem toLower_toUpper (c : Char) : (c.toUpper).toLower = c.toLower := by
  have hup : c.toUpper
      = if c.toNat ≥ 97 ∧ c.toNat ≤ 122 then Char.ofNat (c.toNat - 32) else c := rfl
  have hlo : ∀ d : Char,
      d.toLower = if d.toNat ≥ 65 ∧ d.toNat ≤ 90 then Char.ofNat (d.toNat + 32) else d :=
    fun d => rfl
  by_cases h : c.toNat ≥ 97 ∧ c.toNat ≤ 122
  · rw [hup, if_pos h, hlo, hlo]
    have ht : (Char.ofNat (c.toNat - 32)).toNat = c.toNat - 32 := toNat_ofNat_of_lt (by omega)
    rw [ht, if_pos (by omega), if_neg (by omega)]
    have heq : c.toNat - 32 + 32 = c.toNat := by omega
    rw [heq, Char.ofNat_toNat]
  · rw [hup, if_neg h]

/-- The lowercased view of an uppercased text is the lowercased view of
the original text. -/
theorem lowGet_upper (t : List Char) : lowGet (t.map Char.toUpper) = lowGet t := by
  funext i
  simp only [lowGet, List.getD_eq_getElem?_getD, List.getElem?_map]
  cases h : t[i]? with
  | none => rfl
  | some c => simp [toLower_toUpper]

/-- Uppercasing the text does not change how many matches each category
collects (the matches are at the same positions; only the recorded
snippets change case). -/
theorem matchList_length_upper (p : RiskPattern) (t : List Char) :
    (p.matchList (t.map Char.toUpper)).length = (p.matchList t).length := by
  simp only [RiskPattern.matchList, List.length_flatMap, Function.comp_def,
    List.length_map, lowGet_upper]

theorem scan_upper (ps : List RiskPattern) (t : List Char) :
    (scanPatterns ps (t.map Char.toUpper)).1 = (scanPatterns ps t).1 ∧
      (scanPatterns ps (t.map Char.toUpper)).2.2 = (scanPatterns ps t).2.2 := by
  induction ps with
  | nil => exact ⟨rfl, rfl⟩
  | cons p ps ih =>
    have hlen := matchList_length_upper p t
    have hemp : (p.matchList (t.map Char.toUpper)).isEmpty = (p.matchList t).isEmpty := by
      cases h1 : p.matchList (t.map Char.toUpper) <;> cases h2 : p.matchList t <;>
        first
          | rfl
          | (exfalso; rw [h1, h2] at hlen; simp at hlen)
    simp only [scanPatterns]
    rw [hemp, hlen]
    cases hN : (p.matchList t).isEmpty
    · simp only [Bool.false_eq_true, if_false]
      exact ⟨by rw [ih.1], by rw [ih.2]⟩
    · simp only [if_true]
      exact ih

theorem toUpper_newline : Char.toUpper '\n' = '\n' := by decide

theorem combinedText_upper (e : EmailRecord) :
    combinedText (upperEmail e) = (combinedText e).map Char.toUpper := by
  cases e with
  | mk s b =>
    cases s <;> cases b <;>
      simp [combinedText, upperEmail, getField, upperStr, List.map_append, toUpper_newline]

/-- C8: matching is case-insensitive: uppercasing subject and body leaves
the matched category set (and the flag count) unchanged. -/
theorem categories_case_insensitive (e : EmailRecord) :
    (analyze_email (upperEmail e)).risk_categories = (analyze_email e).risk_categories ∧
      (analyze_email (upperEmail e)).num_flags = (analyze_email e).num_flags := by
  have h := scan_upper PATTERNS (combinedText e)
  simp only [analyze_email, combinedText_upper]
  rw [h.1, h.2]
  exact ⟨rfl, rfl⟩

/-! ## Word-boundary semantics -/

theorem tryDown_some (g : Nat → Option Nat) (lo : Nat) :
    ∀ (m r : Nat), tryDown g lo m = some r → ∃ j, g j = some r := by
  intro m
  induction m with
  | zero =>
    intro r h
    simp only [tryDown] at h
    split at h
    · exact ⟨0, h⟩
    · exact Option.noConfusion h
  | succ m ih =>
    intro r h
    simp only [tryDown] at h
    split at h
    · exact Option.noConfusion h
    · cases hg : g (m + 1) with
      | some r' =>
        rw [hg] at h
        exact ⟨m + 1, by rw [hg]; exact h⟩
      | none =>
        rw [hg] at h
        exact ih r h

theorem matchSeq_endsWb (n : Nat) (f : Nat → Char) :
    ∀ (es : RSeq) (i e : Nat), endsWb es = true → matchSeq es n f i = some e →
      boundaryB n f e = true := by
  intro es
  induction es with
  | nil => intro i e hw _; simp [endsWb] at hw
  | cons x tail ih =>
    intro i e hw h
    cases tail with
    | nil =>
      have hx : x = RElem.wb := by simpa [endsWb] using hw
      subst hx
      simp only [matchSeq] at h
      cases hb : boundaryB n f i
      · rw [hb] at h; simp at h
      · rw [hb] at h
        simp only [if_true, matchSeq, Option.some.injEq] at h
        rw [← h]
        exact hb
    | cons y ys =>
      have hw' : endsWb (y :: ys) = true := by simpa [endsWb] using hw
      cases x with
      | lit c =>
        simp only [matchSeq] at h
        split at h
        · exact ih (i + 1) e hw' h
        · exact Option.noConfusion h
      | cls cl =>
        simp only [matchSeq] at h
        split at h
        · exact ih (i + 1) e hw' h
        · exact Option.noConfusion h
      | plusCls cl =>
        simp only [matchSeq] at h
        obtain ⟨j, hj⟩ := tryDown_some _ _ _ _ h
        exact ih (i + j) e hw' hj
      | starCls cl =>
        simp only [matchSeq] at h
        obtain ⟨j, hj⟩ := tryDown_some _ _ _ _ h
        exact ih (i + j) e hw' hj
      | repCls cl m =>
        simp only [matchSeq] at h
        split at h
        · exact ih (i + m) e hw' h
        · exact Option.noConfusion h
      | wb =>
        simp only [matchSeq] at h
        split at h
        · exact ih i e hw' h
        · exact Option.noConfusion h

theorem matchSeq_startsWb (n : Nat) (f : Nat → Char) (a : RSeq) (i e : Nat)
    (hs : startsWb a = true) (h : matchSeq a n f i = some e) :
    boundaryB n f i = true := by
  cases a with
  | nil => simp [startsWb] at hs
  | cons x tail =>
    cases x <;> simp [startsWb] at hs
    simp only [matchSeq] at h
    cases hb : boundaryB n f i
    · rw [hb] at h; simp at h
    · rfl

theorem matchAlts_some (n : Nat) (f : Nat → Char) :
    ∀ (rx : Regex) (i e : Nat), matchAlts rx n f i = some e →
      ∃ a, a ∈ rx ∧ matchSeq a n f i = some e := by
  intro rx
  induction rx with
  | nil => intro i e h; exact Option.noConfusion h
  | cons a rest ih =>
    intro i e h
    simp only [matchAlts] at h
    cases hg : matchSeq a n f i with
    | some e' =>
      rw [hg] at h
      exact ⟨a, List.mem_cons_self a rest, by rw [hg]; exact h⟩
    | none =>
      rw [hg] at h
      obtain ⟨b, hb, hm⟩ := ih i e h
      exact ⟨b, List.mem_cons_of_mem a hb, hm⟩

theorem findIterGo_mem (rx : Regex) (n : Nat) (f : Nat → Char) :
    ∀ (c i : Nat) (pr : Nat × Nat), pr ∈ findIterGo rx n f c i →
      matchAlts rx n f pr.1 = some pr.2 := by
  intro c
  induction c with
  | zero => intro i pr h; simp [findIterGo] at h
  | succ c ih =>
    intro i pr h
    simp only [findIterGo] at h
    split at h
    · simp at h
    · cases hg : matchAlts rx n f i with
      | some e =>
        rw [hg] at h
        rcases List.mem_cons.mp h with h1 | h1
        · subst h1; simpa using hg
        · exact ih _ pr h1
      | none =>
        rw [hg] at h
        exact ih _ pr h

/-- Every match of a word-boundary-delimited regex starts and ends on a
word boundary. -/
theorem findIter_boundary (rx : Regex) (n : Nat) (f : Nat → Char)
    (hd : altsDelimited rx = true) :
    ∀ pr ∈ findIter rx n f,
      boundaryB n f pr.1 = true ∧ boundaryB n f pr.2 = true := by
  intro pr hpr
  have hm := findIterGo_mem rx n f _ _ pr hpr
  obtain ⟨a, ha, hseq⟩ := matchAlts_some n f rx pr.1 pr.2 hm
  have hdel := List.all_eq_true.mp hd a ha
  rw [Bool.and_eq_true] at hdel
  have hs : startsWb a = true := hdel.1
  have he : endsWb a = true := hdel.2
  exact ⟨matchSeq_startsWb n f a _ _ hs hseq, matchSeq_endsWb n f a _ _ he hseq⟩

/-- All regexes of the catalog, in catalog order. -/
def allCatalogRegexes : List Regex := PATTERNS.flatMap RiskPattern.patterns

/-- C3 amended: every catalog pattern other than the SSN pattern is
word-boundary delimited, so each of its matches starts and ends on a word
boundary; a target phrase strictly inside a longer word therefore cannot
match those patterns. -/
theorem catalog_matches_on_word_boundaries (text : List Char) (p : RiskPattern) (rx : Regex)
    (hp : p ∈ PATTERNS) (hrx : rx ∈ p.patterns) (hne : rx ≠ rxSSN) :
    ∀ pr ∈ findIter rx text.length (lowGet text),
      boundaryB text.length (lowGet text) pr.1 = true ∧
        boundaryB text.length (lowGet text) pr.2 = true := by
  have hall : (allCatalogRegexes.all fun r => (r == rxSSN) || altsDelimited r) = true := by
    decide
  have hmem : rx ∈ allCatalogRegexes := List.mem_flatMap.mpr ⟨p, hp, hrx⟩
  have hor := List.all_eq_true.mp hall rx hmem
  have hd : altsDelimited rx = true := by
    rcases Bool.or_eq_true_iff.mp hor with hbeq | hdel
    · exact absurd (beq_iff_eq.mp hbeq) hne
    · exact hdel
  exact findIter_boundary rx _ _ hd

/-- Text in which the SSN phrase occurs only inside a longer word. -/
def ssnText : List Char := "MISSSN 123-45-6789".data

/-- C3 counterexample: the SSN pattern has no word-boundary anchors, so
it matches starting in the middle of the longer word "MISSSN": position 3
of `ssnText` has word characters on both sides (no boundary), yet the
match (3, 18) is produced and the analyzer flags `sensitive_data`. -/
theorem word_boundary_counterexample :
    (⟨"sensitive_data", [rxSSN, rxSensitiveWords]⟩ : RiskPattern) ∈ PATTERNS ∧
      findIter rxSSN ssnText.length (lowGet ssnText) = [(3, 18)] ∧
      isWordChar (ssnText.getD 2 ' ') = true ∧
      isWordChar (ssnText.getD 3 ' ') = true ∧
      boundaryB ssnText.length (lowGet ssnText) 3 = false ∧
      (analyze_email ⟨some [], some ssnText⟩).risk_categories = "sensitive_data".data := by
  decide

/-- Example text for the C3 witness. -/
def guaranteeText : List Char := "say guarantee now".data

/-- Witness for the amended C3 at the `over_promise` "guarantee" regex. -/
theorem catalog_matches_on_word_boundaries_witness :
    ((⟨"over_promise", [rxGuarantee, rxWillEnsure]⟩ : RiskPattern) ∈ PATTERNS ∧
        rxGuarantee ∈ (⟨"over_promise", [rxGuarantee, rxWillEnsure]⟩ : RiskPattern).patterns ∧
        rxGuarantee ≠ rxSSN ∧
        ((4, 13) : Nat × Nat) ∈ findIter rxGuarantee guaranteeText.length (lowGet guaranteeText)) ∧
      (boundaryB guaranteeText.length (lowGet guaranteeText) 4 = true ∧
        boundaryB guaranteeText.length (lowGet guaranteeText) 13 = true) :=
  ⟨⟨by decide, by decide, by decide, by decide⟩,
    catalog_matches_on_word_boundaries guaranteeText
      ⟨"over_promise", [rxGuarantee, rxWillEnsure]⟩ rxGuarantee
      (by decide) (by decide) (by decide) ((4, 13) : Nat × Nat) (by decide)⟩
